import Mathlib

/-!
Shallow embedding of `application/cache.py`: a Redis-backed response cache for
a conversational LLM service.  The file models, from the source:

* `gen_cache_key` — key derivation via `json.dumps(list(messages), sort_keys=True)`
  prefixed by the model name and hashed;
* the unary decorator `gen_cache` (its inner `wrapper`), as a state-passing
  function over an explicit store;
* the streaming decorator `stream_cache` (its inner `wrapper`), whose generator
  semantics are modelled as the finite list of yielded chunks plus a final
  outcome (normal exhaustion or a propagated exception);
* Python's `json.dumps` with default separators and `ensure_ascii=True`
  restricted to the value shapes the cache handles, and `json.loads`
  restricted to arrays of strings (what the streaming hit path decodes).

The Redis client is modelled as an explicit association-list store passed in
and returned; `SET` overwrite semantics are obtained by prepending (lookup
finds the newest entry first).  `time.sleep` on the replay path is real-time
pacing and has no functional content, so it is not modelled.
-/

set_option linter.unusedVariables false

/-- Python values that can appear as an element of the `messages` argument in
this code base: strings, integers, and flat string-valued dictionaries
(a message is a record of `role`/`content` strings).  A non-`dict` element is
exactly what `gen_cache_key`'s `isinstance(msg, dict)` guard rejects. -/
inductive PyVal where
  | str (s : String)
  | int (n : Int)
  | dict (fields : List (String × String))
deriving DecidableEq

/-- Counterpart of `isinstance(msg, dict)`. -/
def PyVal.isDict : PyVal → Bool
  | .dict _ => true
  | _ => false

/-- Python exceptions, split by what `except ValueError` distinguishes:
`valueError` covers `ValueError` (and its subclasses), `other` is any other
exception type, tagged with its type name. -/
inductive PyExc where
  | valueError (msg : String)
  | other (typeName : String) (msg : String)
deriving DecidableEq

/-- Whether an `except ValueError as e:` clause catches the exception. -/
def PyExc.isValueError : PyExc → Bool
  | .valueError _ => true
  | .other _ _ => false

/-! ### JSON serialization (`json.dumps`, default separators, `ensure_ascii=True`) -/

/-- Lowercase hexadecimal digit, as CPython's `\uXXXX` escapes emit. -/
def hexDigitChar (n : Nat) : Char :=
  if n < 10 then Char.ofNat (48 + n) else Char.ofNat (87 + n)

/-- Four-digit lowercase hex rendering of `n < 0x10000`, as in `\uXXXX`. -/
def toHex4 (n : Nat) : List Char :=
  [hexDigitChar (n / 4096 % 16), hexDigitChar (n / 256 % 16),
   hexDigitChar (n / 16 % 16), hexDigitChar (n % 16)]

/-- Per-character escaping of CPython's ASCII JSON string encoder: the named
short escapes, printable ASCII verbatim, and `\uXXXX` (with surrogate pairs
above `0xFFFF`) for everything else. -/
def escapeChar (c : Char) : List Char :=
  if c = '\\' then ['\\', '\\']
  else if c = '"' then ['\\', '"']
  else if c = '\n' then ['\\', 'n']
  else if c = '\r' then ['\\', 'r']
  else if c = '\t' then ['\\', 't']
  else if c.toNat = 8 then ['\\', 'b']
  else if c.toNat = 12 then ['\\', 'f']
  else if 0x20 ≤ c.toNat ∧ c.toNat ≤ 0x7e then [c]
  else if c.toNat < 0x10000 then '\\' :: 'u' :: toHex4 c.toNat
  else
    ('\\' :: 'u' :: toHex4 (0xD800 + (c.toNat - 0x10000) / 0x400)) ++
    ('\\' :: 'u' :: toHex4 (0xDC00 + (c.toNat - 0x10000) % 0x400))

/-- Escaped body of a JSON string literal. -/
def encBody : List Char → List Char
  | [] => []
  | c :: cs => escapeChar c ++ encBody cs

/-- A complete JSON string literal for `s`, as a character list. -/
def quoteChars (s : String) : List Char :=
  '"' :: encBody s.data ++ ['"']

/-- A complete JSON string literal for `s`. -/
def json_quote (s : String) : String :=
  String.mk (quoteChars s)

/-- Key order used by `sort_keys=True`: Python compares `str` keys by
code-point lexicographic `<`, which is Lean's `String` order. -/
def keyLE (a b : String × String) : Prop := a.1 ≤ b.1

instance : DecidableRel keyLE := fun a b => inferInstanceAs (Decidable (a.1 ≤ b.1))

/-- One JSON value under `json.dumps(·, sort_keys=True)`: strings and ints
render directly, dictionaries render with their items sorted by key and
joined by the default separators `", "` and `": "`. -/
def json_dumps_val : PyVal → String
  | .str s => json_quote s
  | .int n => toString n
  | .dict fields =>
      "\x7b" ++ String.intercalate ", "
        ((List.insertionSort keyLE fields).map fun kv =>
          json_quote kv.1 ++ ": " ++ json_quote kv.2) ++ "\x7d"

/-- Counterpart of `json.dumps(list(messages), sort_keys=True)`. -/
def json_dumps_messages (msgs : List PyVal) : String :=
  "[" ++ String.intercalate ", " (msgs.map json_dumps_val) ++ "]"

/-- Body of a JSON array of strings with the default `", "` item separator,
as a character list (counterpart of `", ".join` inside `json.dumps`). -/
def encItems : List String → List Char
  | [] => []
  | [s] => quoteChars s
  | s :: rest => quoteChars s ++ ',' :: ' ' :: encItems rest

/-- Counterpart of `json.dumps(stream_cache_data)` for a list of chunk
strings: `"[" ++ ", ".join(quoted items) ++ "]"`. -/
def json_dumps_chunks (l : List String) : String :=
  String.mk ('[' :: encItems l ++ [']'])

/-! ### JSON parsing (`json.loads` restricted to arrays of strings) -/

/-- Drop JSON whitespace. -/
def skipWs (cs : List Char) : List Char :=
  cs.dropWhile fun c => c == ' ' || c == '\t' || c == '\n' || c == '\r'

/-- Value of one hexadecimal digit. -/
def hexVal (c : Char) : Option Nat :=
  if '0' ≤ c ∧ c ≤ '9' then some (c.toNat - 48)
  else if 'a' ≤ c ∧ c ≤ 'f' then some (c.toNat - 87)
  else if 'A' ≤ c ∧ c ≤ 'F' then some (c.toNat - 55)
  else none

/-- Four hexadecimal digits, most significant first. -/
def parseHex4 : List Char → Option (Nat × List Char)
  | c1 :: c2 :: c3 :: c4 :: rest =>
    match hexVal c1, hexVal c2, hexVal c3, hexVal c4 with
    | some d1, some d2, some d3, some d4 =>
        some (((d1 * 16 + d2) * 16 + d3) * 16 + d4, rest)
    | _, _, _, _ => none
  | _ => none

/-- A `\uXXXX` escape, recombining surrogate pairs; a lone surrogate is not
representable as a scalar value and is rejected. -/
def parseUnicodeEsc (cs : List Char) : Option (Char × List Char) :=
  match parseHex4 cs with
  | none => none
  | some (n, rest) =>
    if n < 0xD800 ∨ 0xE000 ≤ n then some (Char.ofNat n, rest)
    else if n < 0xDC00 then
      match rest with
      | b :: u :: rest1 =>
        if b = '\\' ∧ u = 'u' then
          match parseHex4 rest1 with
          | some (m, rest2) =>
            if 0xDC00 ≤ m ∧ m < 0xE000 then
              some (Char.ofNat ((n - 0xD800) * 0x400 + (m - 0xDC00) + 0x10000), rest2)
            else none
          | none => none
        else none
      | _ => none
    else none

/-- A JSON string escape sequence (the character after the backslash). -/
def parseEsc : List Char → Option (Char × List Char)
  | [] => none
  | c :: rest =>
    if c = '"' then some ('"', rest)
    else if c = '\\' then some ('\\', rest)
    else if c = '/' then some ('/', rest)
    else if c = 'n' then some ('\n', rest)
    else if c = 'r' then some ('\r', rest)
    else if c = 't' then some ('\t', rest)
    else if c = 'b' then some (Char.ofNat 8, rest)
    else if c = 'f' then some (Char.ofNat 12, rest)
    else if c = 'u' then parseUnicodeEsc rest
    else none

/-- Body of a JSON string literal up to (and consuming) the closing quote.
`fuel` bounds the number of decoded characters; the closing quote costs no
fuel, so `fuel ≥` decoded length suffices. -/
def parseStrBody (fuel : Nat) (cs : List Char) : Option (List Char × List Char) :=
  match cs with
  | [] => none
  | c :: rest =>
    if c = '"' then some ([], rest)
    else
      match fuel with
      | 0 => none
      | fuel' + 1 =>
        if c = '\\' then
          match parseEsc rest with
          | some (e, rest1) =>
            match parseStrBody fuel' rest1 with
            | some (l, r) => some (e :: l, r)
            | none => none
          | none => none
        else if c.toNat < 0x20 then none
        else
          match parseStrBody fuel' rest with
          | some (l, r) => some (c :: l, r)
          | none => none

/-- One or more comma-separated JSON string items followed by the closing
bracket; positioned at the opening quote of the first item.  `fuel` bounds
the number of items after the first. -/
def parseItems (fuel : Nat) (cs : List Char) : Option (List (List Char) × List Char) :=
  match cs with
  | [] => none
  | c :: rest =>
    if c = '"' then
      match parseStrBody rest.length rest with
      | none => none
      | some (item, rest1) =>
        match skipWs rest1 with
        | [] => none
        | d :: tail =>
          if d = ']' then some ([item], tail)
          else if d = ',' then
            match fuel with
            | 0 => none
            | fuel' + 1 =>
              match parseItems fuel' (skipWs tail) with
              | some (items, tail1) => some (item :: items, tail1)
              | none => none
          else none
    else none

/-- Counterpart of `json.loads` on the streaming hit path, restricted to its
used shape: a JSON array of strings (anything else fails the decode). -/
def json_loads_chunks (s : String) : Option (List String) :=
  match skipWs s.data with
  | [] => none
  | c :: rest =>
    if c = '[' then
      match skipWs rest with
      | [] => none
      | d :: tail =>
        if d = ']' then (if skipWs tail = [] then some [] else none)
        else
          match parseItems (d :: tail).length (d :: tail) with
          | some (items, tail1) =>
              if skipWs tail1 = [] then some (items.map String.mk) else none
          | none => none
    else none

/-! ### Key derivation -/

/-- Modelled from the spec: `get_hash` lives in `application/utils`, which is
not among the sources; the spec requires only "a cryptographic or strong
non-cryptographic hash function" yielding a fixed-length key.  Modelled as
64-bit FNV-1a over the string's characters, rendered in hexadecimal.  Every
theorem below uses only that it is a function of its input. -/
def get_hash (s : String) : String :=
  String.mk (Nat.toDigits 16
    (s.data.foldl (fun h c => ((h ^^^ c.toNat) * 1099511628211) % 18446744073709551616)
      14695981039346656037))

/-- Counterpart of `gen_cache_key(*messages, model=...)`: require every
message to be a dictionary (else `ValueError`), serialize the message list
with `json.dumps(·, sort_keys=True)`, prefix the model name with `"_"`, and
hash.  Call sites in this file pass `"docgpt"` explicitly where the source
relies on the Python default value of the `model` keyword. -/
def gen_cache_key (messages : List PyVal) (model : String) : Except PyExc String :=
  if messages.all PyVal.isDict then
    Except.ok (get_hash (model ++ "_" ++ json_dumps_messages messages))
  else
    Except.error (PyExc.valueError "All messages must be dictionaries.")

/-! ### The Redis store -/

/-- The key-value store: an association list of `(key, value, ttlSeconds)`,
newest entry first.  `SET` overwrite semantics come from `get` returning the
newest entry for a key. -/
abbrev Store := List (String × String × Nat)

/-- Counterpart of `redis_client.get(key)`: `none` models a `nil` reply. -/
def Store.get (st : Store) (k : String) : Option String :=
  match st with
  | [] => none
  | (k1, v, _) :: rest => if k1 = k then some v else Store.get rest k

/-- Counterpart of `redis_client.set(key, value, ex=ex)`. -/
def Store.set (st : Store) (k v : String) (ex : Nat) : Store :=
  (k, v, ex) :: st

/-- Counterpart of `cached_response = redis_client.get(key)` followed by the
truthiness test `if cached_response:` — a `nil` reply and an empty byte
string are both falsy, so an empty cached payload behaves like a miss. -/
def redis_truthy_get (st : Store) (k : String) : Option String :=
  match Store.get st k with
  | some v => if v = "" then none else some v
  | none => none

/-- The literal returned by the unary `except ValueError` handler and yielded
by the streaming one. -/
def cache_key_error_message : String :=
  "Error: No user message found in the conversation to generate a cache key."

/-! ### The unary wrapper (`gen_cache.wrapper`) -/

/-- Observable behaviour of one call to the unary wrapper: the value returned
(or the exception propagated), the final store, and how many times the
wrapped generation function was called. -/
structure UnaryRun where
  result : Except PyExc String
  store : Store
  genCalls : Nat

/-- One call of `gen_cache`'s inner `wrapper(self, model, messages, ...)`.
The wrapped function's behaviour is supplied as `gen` (what `func(...)`
returns, or the exception it raises).  Faithful to the source: the cache key
is computed by `gen_cache_key(*messages)` — the `model` parameter is NOT
forwarded, so the Python default `"docgpt"` is always used; the surrounding
`try`/`except ValueError` also catches a `ValueError` raised by `func`. -/
def gen_cache_wrapper (model : String) (messages : List PyVal) (store : Store)
    (gen : Except PyExc String) : UnaryRun :=
  match gen_cache_key messages "docgpt" with
  | Except.error e =>
    if e.isValueError then ⟨Except.ok cache_key_error_message, store, 0⟩
    else ⟨Except.error e, store, 0⟩
  | Except.ok cacheKey =>
    match redis_truthy_get store cacheKey with
    | some cached => ⟨Except.ok cached, store, 0⟩
    | none =>
      match gen with
      | Except.error e =>
        if e.isValueError then ⟨Except.ok cache_key_error_message, store, 1⟩
        else ⟨Except.error e, store, 1⟩
      | Except.ok result =>
        ⟨Except.ok result, Store.set store cacheKey result 3600, 1⟩

/-! ### The streaming wrapper (`stream_cache.wrapper`) -/

/-- How the generator finished: exhausted normally, or an exception escaped
to the consumer. -/
inductive StreamOutcome where
  | done
  | raised (e : PyExc)
deriving DecidableEq

/-- Observable behaviour of fully consuming one call of the streaming
wrapper: the chunks yielded in order, the terminal outcome, the final store,
and whether the wrapped generation function was called. -/
structure StreamRun where
  chunks : List String
  outcome : StreamOutcome
  store : Store
  genCalled : Bool

/-- One fully-consumed call of `stream_cache`'s inner
`wrapper(self, model, messages, stream, ...)`.  The wrapped function's live
stream is supplied as `gen`: the chunks it yields in order, then optionally
the exception it raises after them.  Faithful to the source:
`cache_key = gen_cache_key(*messages)` runs BEFORE the `try`, so a
derivation failure propagates to the consumer instead of being converted to
the sentinel chunk; the `model` parameter is again not forwarded to the key;
on a hit the stored payload is `json.loads`-decoded (a decode failure is a
`ValueError`, caught by the handler); on a miss every live chunk is buffered
and re-yielded, and only after exhaustion is the buffer serialized and
stored; a `ValueError` escaping the guarded region yields the sentinel chunk
and ends the stream, any other exception propagates. -/
def stream_cache_wrapper (model : String) (messages : List PyVal) (stream : Bool)
    (store : Store) (gen : List String × Option PyExc) : StreamRun :=
  match gen_cache_key messages "docgpt" with
  | Except.error e => ⟨[], StreamOutcome.raised e, store, false⟩
  | Except.ok cacheKey =>
    match redis_truthy_get store cacheKey with
    | some cached =>
      match json_loads_chunks cached with
      | some chunks => ⟨chunks, StreamOutcome.done, store, false⟩
      | none => ⟨[cache_key_error_message], StreamOutcome.done, store, false⟩
    | none =>
      match gen with
      | (chunks, some e) =>
        if e.isValueError then
          ⟨chunks ++ [cache_key_error_message], StreamOutcome.done, store, true⟩
        else ⟨chunks, StreamOutcome.raised e, store, true⟩
      | (chunks, none) =>
        ⟨chunks, StreamOutcome.done,
          Store.set store cacheKey (json_dumps_chunks chunks) 1800, true⟩

/-! ### Statement helpers -/

/-- The cache key both wrappers actually use: `gen_cache_key(*messages)` with
the Python default `model="docgpt"`, spelled out for use in theorem
statements. -/
def docgpt_cache_key (messages : List PyVal) : String :=
  get_hash ("docgpt" ++ "_" ++ json_dumps_messages messages)

/-- The one-message conversation of the spec's round-trip scenario: a single
user-role message whose content is `"hi"`. -/
def example_messages : List PyVal :=
  [PyVal.dict [("role", "user"), ("content", "hi")]]

/-! ### Helper lemmas -/

theorem Store.get_set_self (st : Store) (k v : String) (ex : Nat) :
    Store.get (Store.set st k v ex) k = some v := by
  simp [Store.set, Store.get]

theorem gen_cache_key_ok_of_all_dict {messages : List PyVal}
    (hd : messages.all PyVal.isDict = true) :
    gen_cache_key messages "docgpt" = Except.ok (docgpt_cache_key messages) := by
  simp [gen_cache_key, hd, docgpt_cache_key]

/-! ### Claim theorems -/

/-- C1: the claim says the unary wrapper derives its cache key from the pair
`(model, messages)`, so that identical messages under different model names
use different cache entries.  The source instead calls
`gen_cache_key(*messages)` without forwarding `model`, so the key — and with
it the wrapper's entire observable behaviour — is independent of the model
name: two calls with identical messages but different models share one cache
entry. -/
theorem C1_unary_wrapper_ignores_model (m₁ m₂ : String) (messages : List PyVal)
    (store : Store) (gen : Except PyExc String) :
    gen_cache_wrapper m₁ messages store gen = gen_cache_wrapper m₂ messages store gen := rfl

/-- C2: the claim says that on a cache-key derivation failure the streaming
wrapper yields exactly one sentinel error chunk and terminates without
raising.  In the source, `cache_key = gen_cache_key(*messages)` runs before
the `try`, so the `ValueError` propagates to the consumer at the first
iteration: no chunk at all is yielded, the wrapped generation operation is
not called, and the error is raised rather than converted. -/
theorem C2_stream_derivation_failure_raises :
    stream_cache_wrapper "m" [PyVal.int 3] true [] ([], none) =
      ⟨[], StreamOutcome.raised (PyExc.valueError "All messages must be dictionaries."),
        [], false⟩ := rfl

/-- C3 counterexample: the claim says every failure of the wrapped generation
operation, of any exception type, propagates unchanged.  Here the wrapped
operation raises `ValueError "boom"` on a miss, and the unary wrapper's
`except ValueError` converts it into the sentinel degraded response instead
of propagating it. -/
theorem C3_counterexample :
    (gen_cache_wrapper "m" example_messages [] (Except.error (PyExc.valueError "boom"))).result
      = Except.ok cache_key_error_message ∧
    (gen_cache_wrapper "m" example_messages [] (Except.error (PyExc.valueError "boom"))).result
      ≠ Except.error (PyExc.valueError "boom") := by
  constructor
  · rfl
  · intro h
    rw [show (gen_cache_wrapper "m" example_messages []
        (Except.error (PyExc.valueError "boom"))).result = Except.ok cache_key_error_message
      from rfl] at h
    exact Except.noConfusion h

/-- C4: calling the unary wrapper with a messages argument containing a
non-dictionary element does not raise: `gen_cache_key` fails with
`ValueError` before the Redis client is even created, the handler returns
the fixed sentinel error-text response, the store is untouched (zero
writes), and the wrapped generation operation is never called. -/
theorem C4_unary_invalid_input (model : String) (messages : List PyVal) (store : Store)
    (gen : Except PyExc String) (h : ∃ m ∈ messages, m.isDict = false) :
    gen_cache_wrapper model messages store gen =
      ⟨Except.ok cache_key_error_message, store, 0⟩ := by
  have hall : messages.all PyVal.isDict = false := by
    rcases h with ⟨m, hm, hnd⟩
    rw [List.all_eq_false]
    exact ⟨m, hm, by simp [hnd]⟩
  simp [gen_cache_wrapper, gen_cache_key, hall, PyExc.isValueError]

/-- Witness for C4 at the concrete input `messages = [3]`. -/
theorem C4_unary_invalid_input_witness :
    (∃ m ∈ [PyVal.int 3], m.isDict = false) ∧
    gen_cache_wrapper "m" [PyVal.int 3] [] (Except.ok "hello") =
      ⟨Except.ok cache_key_error_message, [], 0⟩ :=
  ⟨⟨PyVal.int 3, by decide, rfl⟩,
    C4_unary_invalid_input "m" [PyVal.int 3] [] (Except.ok "hello")
      ⟨PyVal.int 3, by decide, rfl⟩⟩

/-- C5: the spec's unary round trip.  With model `"m"`, the single user
message `"hi"`, and an empty store, a first call whose generation returns
`"hello"` returns `"hello"`, calls generation once, and stores `"hello"`
under the derived key; a second call with identical arguments — whatever its
generation `g` would do — returns `"hello"` from the cache, calls generation
zero times, and writes nothing. -/
theorem C5_unary_cache_round_trip (g : Except PyExc String) :
    (gen_cache_wrapper "m" example_messages [] (Except.ok "hello")).result
      = Except.ok "hello" ∧
    (gen_cache_wrapper "m" example_messages [] (Except.ok "hello")).genCalls = 1 ∧
    Store.get (gen_cache_wrapper "m" example_messages [] (Except.ok "hello")).store
      (docgpt_cache_key example_messages) = some "hello" ∧
    (gen_cache_wrapper "m" example_messages
        (gen_cache_wrapper "m" example_messages [] (Except.ok "hello")).store g).result
      = Except.ok "hello" ∧
    (gen_cache_wrapper "m" example_messages
        (gen_cache_wrapper "m" example_messages [] (Except.ok "hello")).store g).genCalls = 0 ∧
    (gen_cache_wrapper "m" example_messages
        (gen_cache_wrapper "m" example_messages [] (Except.ok "hello")).store g).store
      = (gen_cache_wrapper "m" example_messages [] (Except.ok "hello")).store := by
  have hkey : gen_cache_key example_messages "docgpt"
      = Except.ok (docgpt_cache_key example_messages) :=
    gen_cache_key_ok_of_all_dict rfl
  have hr1 : gen_cache_wrapper "m" example_messages [] (Except.ok "hello")
      = ⟨Except.ok "hello",
          Store.set [] (docgpt_cache_key example_messages) "hello" 3600, 1⟩ := by
    simp [gen_cache_wrapper, hkey, redis_truthy_get, Store.get]
  have hget : redis_truthy_get
      (Store.set [] (docgpt_cache_key example_messages) "hello" 3600)
      (docgpt_cache_key example_messages) = some "hello" := by
    simp [redis_truthy_get, Store.get_set_self]
  have hr2 : gen_cache_wrapper "m" example_messages
      (Store.set [] (docgpt_cache_key example_messages) "hello" 3600) g
      = ⟨Except.ok "hello",
          Store.set [] (docgpt_cache_key example_messages) "hello" 3600, 0⟩ := by
    simp [gen_cache_wrapper, hkey, hget]
  rw [hr1]
  refine ⟨rfl, rfl, Store.get_set_self _ _ _ _, ?_, ?_, ?_⟩ <;> rw [hr2]

/-- C7: no caching of failures.  Whenever the wrapped generation operation
raises — any exception type, unary or streaming, after any prefix of emitted
chunks — the final store equals the initial store: neither the unary result
nor the partially accumulated chunk buffer is ever written. -/
theorem C7_no_caching_of_failures (model : String) (messages : List PyVal)
    (store : Store) (e : PyExc) (chunks : List String) :
    (gen_cache_wrapper model messages store (Except.error e)).store = store ∧
    (stream_cache_wrapper model messages true store (chunks, some e)).store = store := by
  constructor
  · unfold gen_cache_wrapper
    repeat' split
    all_goals try rfl
    all_goals simp_all
  · unfold stream_cache_wrapper
    repeat' split
    all_goals try rfl
    all_goals simp_all

/-- C9: an empty generation result is stored but never served.  On a miss,
generation returning `""` is written under the derived key, yet a later call
finds the cached empty payload falsy (`if cached_response:`), treats it as a
miss, and invokes generation again — whose fresh result is what is
returned. -/
theorem C9_empty_response_never_served (model : String) (messages : List PyVal)
    (store : Store) (hd : messages.all PyVal.isDict = true)
    (hm : redis_truthy_get store (docgpt_cache_key messages) = none) :
    Store.get (gen_cache_wrapper model messages store (Except.ok "")).store
      (docgpt_cache_key messages) = some "" ∧
    (∀ g, (gen_cache_wrapper model messages
      (gen_cache_wrapper model messages store (Except.ok "")).store g).genCalls = 1) ∧
    (∀ s, (gen_cache_wrapper model messages
      (gen_cache_wrapper model messages store (Except.ok "")).store (Except.ok s)).result
        = Except.ok s) := by
  have hkey := gen_cache_key_ok_of_all_dict hd
  have hr1 : gen_cache_wrapper model messages store (Except.ok "")
      = ⟨Except.ok "", Store.set store (docgpt_cache_key messages) "" 3600, 1⟩ := by
    simp [gen_cache_wrapper, hkey, hm]
  have hget : redis_truthy_get
      (Store.set store (docgpt_cache_key messages) "" 3600)
      (docgpt_cache_key messages) = none := by
    simp [redis_truthy_get, Store.get_set_self]
  rw [hr1]
  refine ⟨Store.get_set_self _ _ _ _, ?_, ?_⟩
  · intro g
    cases g with
    | error e =>
      by_cases hv : e.isValueError <;> simp [gen_cache_wrapper, hkey, hget, hv]
    | ok s => simp [gen_cache_wrapper, hkey, hget]
  · intro s
    simp [gen_cache_wrapper, hkey, hget]

/-- Witness for C9 at model `"m"`, the single user message `"hi"`, and an
empty store. -/
theorem C9_empty_response_never_served_witness :
    example_messages.all PyVal.isDict = true ∧
    redis_truthy_get [] (docgpt_cache_key example_messages) = none ∧
    (Store.get (gen_cache_wrapper "m" example_messages [] (Except.ok "")).store
        (docgpt_cache_key example_messages) = some "" ∧
      (∀ g, (gen_cache_wrapper "m" example_messages
        (gen_cache_wrapper "m" example_messages [] (Except.ok "")).store g).genCalls = 1) ∧
      (∀ s, (gen_cache_wrapper "m" example_messages
        (gen_cache_wrapper "m" example_messages [] (Except.ok "")).store
          (Except.ok s)).result = Except.ok s)) :=
  ⟨rfl, rfl, C9_empty_response_never_served "m" example_messages [] rfl rfl⟩

/-- C10: `gen_cache_key` fails exactly when some element of `messages` is not
a dictionary, and the only error it ever raises is the all-messages-must-be-
dictionaries `ValueError`.  In particular it never inspects roles: the empty
conversation and conversations with no user-role message derive keys
normally, and the "no user message found" condition named by the sentinel
text is never itself detected. -/
theorem C10_derivation_fails_iff_nondict (messages : List PyVal) (model : String) :
    ((∃ e, gen_cache_key messages model = Except.error e)
        ↔ ∃ m ∈ messages, m.isDict = false) ∧
    (∀ e, gen_cache_key messages model = Except.error e →
      e = PyExc.valueError "All messages must be dictionaries.") := by
  by_cases h : messages.all PyVal.isDict
  · constructor
    · simp only [gen_cache_key, h, if_true]
      constructor
      · rintro ⟨e, he⟩
        exact absurd he (by simp)
      · rw [List.all_eq_true] at h
        rintro ⟨m, hm, hnd⟩
        have := h m hm
        rw [this] at hnd
        exact absurd hnd (by simp)
    · intro e he
      rw [gen_cache_key, if_pos h] at he
      exact absurd he (by simp)
  · have hf : messages.all PyVal.isDict = false := by
      cases hc : messages.all PyVal.isDict
      · rfl
      · exact absurd hc h
    constructor
    · simp only [gen_cache_key, hf]
      constructor
      · intro _
        rw [List.all_eq_false] at hf
        rcases hf with ⟨m, hm, hnd⟩
        exact ⟨m, hm, by simpa using hnd⟩
      · intro _
        exact ⟨PyExc.valueError "All messages must be dictionaries.", by simp⟩
    · intro e he
      rw [gen_cache_key, if_neg h] at he
      exact (Except.error.injEq _ _).mp he.symm ▸ rfl

/-- C3 amended: on a miss, a failure of the wrapped generation operation of
any type other than `ValueError` propagates unchanged through both wrappers
(after the chunks already emitted, for the streaming one); a `ValueError`
raised by the wrapped operation is instead caught by the wrappers'
`except ValueError` handlers and converted into the sentinel degraded
response (unary) or into the sentinel chunk followed by normal termination
(streaming). -/
theorem C3_generation_failure_propagation (model : String) (messages : List PyVal)
    (store : Store) (e : PyExc) (chunks : List String)
    (hd : messages.all PyVal.isDict = true)
    (hm : redis_truthy_get store (docgpt_cache_key messages) = none) :
    (e.isValueError = false →
      (gen_cache_wrapper model messages store (Except.error e)).result = Except.error e ∧
      (stream_cache_wrapper model messages true store (chunks, some e)).outcome
        = StreamOutcome.raised e ∧
      (stream_cache_wrapper model messages true store (chunks, some e)).chunks = chunks) ∧
    (e.isValueError = true →
      (gen_cache_wrapper model messages store (Except.error e)).result
        = Except.ok cache_key_error_message ∧
      (stream_cache_wrapper model messages true store (chunks, some e)).outcome
        = StreamOutcome.done ∧
      (stream_cache_wrapper model messages true store (chunks, some e)).chunks
        = chunks ++ [cache_key_error_message]) := by
  have hkey := gen_cache_key_ok_of_all_dict hd
  constructor <;> intro hv <;>
    refine ⟨?_, ?_, ?_⟩ <;>
      simp [gen_cache_wrapper, stream_cache_wrapper, hkey, hm, hv]

/-- Witness for the amended C3 at model `"m"`, the single user message
`"hi"`, an empty store, chunks `["a"]`, and a `RuntimeError`. -/
theorem C3_generation_failure_propagation_witness :
    example_messages.all PyVal.isDict = true ∧
    redis_truthy_get [] (docgpt_cache_key example_messages) = none ∧
    (((PyExc.other "RuntimeError" "boom").isValueError = false →
      (gen_cache_wrapper "m" example_messages []
          (Except.error (PyExc.other "RuntimeError" "boom"))).result
        = Except.error (PyExc.other "RuntimeError" "boom") ∧
      (stream_cache_wrapper "m" example_messages true []
          (["a"], some (PyExc.other "RuntimeError" "boom"))).outcome
        = StreamOutcome.raised (PyExc.other "RuntimeError" "boom") ∧
      (stream_cache_wrapper "m" example_messages true []
          (["a"], some (PyExc.other "RuntimeError" "boom"))).chunks = ["a"]) ∧
    ((PyExc.other "RuntimeError" "boom").isValueError = true →
      (gen_cache_wrapper "m" example_messages []
          (Except.error (PyExc.other "RuntimeError" "boom"))).result
        = Except.ok cache_key_error_message ∧
      (stream_cache_wrapper "m" example_messages true []
          (["a"], some (PyExc.other "RuntimeError" "boom"))).outcome
        = StreamOutcome.done ∧
      (stream_cache_wrapper "m" example_messages true []
          (["a"], some (PyExc.other "RuntimeError" "boom"))).chunks
        = ["a"] ++ [cache_key_error_message])) :=
  ⟨rfl, rfl,
    C3_generation_failure_propagation "m" example_messages []
      (PyExc.other "RuntimeError" "boom") ["a"] rfl rfl⟩

/-- Sorting by key is insensitive to the input order of the pairs when the
keys are distinct: any two permutations of the same field set sort to the
same list.  This is the canonicalization property behind `sort_keys=True`. -/
theorem insertionSort_key_eq_of_perm (f g : List (String × String)) (hp : f.Perm g)
    (hnd : (f.map Prod.fst).Nodup) :
    List.insertionSort keyLE f = List.insertionSort keyLE g := by
  haveI : IsTotal (String × String) keyLE := ⟨fun a b => le_total a.1 b.1⟩
  haveI : IsTrans (String × String) keyLE := ⟨fun a b c hab hbc => le_trans hab hbc⟩
  haveI : IsAntisymm (String × String) (fun a b : String × String => a.1 < b.1) :=
    ⟨fun a b h1 h2 => absurd h1 (lt_asymm h2)⟩
  have hs1 : List.Pairwise keyLE (List.insertionSort keyLE f) :=
    List.sorted_insertionSort keyLE f
  have hs2 : List.Pairwise keyLE (List.insertionSort keyLE g) :=
    List.sorted_insertionSort keyLE g
  have hp1 : (List.insertionSort keyLE f).Perm f := List.perm_insertionSort keyLE f
  have hp2 : (List.insertionSort keyLE g).Perm g := List.perm_insertionSort keyLE g
  have hperm : (List.insertionSort keyLE f).Perm (List.insertionSort keyLE g) :=
    hp1.trans (hp.trans hp2.symm)
  have hnd1 : ((List.insertionSort keyLE f).map Prod.fst).Nodup :=
    ((hp1.map Prod.fst).symm).nodup hnd
  have hnd2 : ((List.insertionSort keyLE g).map Prod.fst).Nodup :=
    ((hperm.map Prod.fst)).nodup hnd1
  have hlt1 : List.Sorted (fun a b : String × String => a.1 < b.1)
      (List.insertionSort keyLE f) := by
    have hne : List.Pairwise (fun a b : String × String => a.1 ≠ b.1)
        (List.insertionSort keyLE f) := List.pairwise_map.mp hnd1
    exact (hs1.and hne).imp fun h => lt_of_le_of_ne h.1 h.2
  have hlt2 : List.Sorted (fun a b : String × String => a.1 < b.1)
      (List.insertionSort keyLE g) := by
    have hne : List.Pairwise (fun a b : String × String => a.1 ≠ b.1)
        (List.insertionSort keyLE g) := List.pairwise_map.mp hnd2
    exact (hs2.and hne).imp fun h => lt_of_le_of_ne h.1 h.2
  exact List.eq_of_perm_of_sorted hperm hlt1 hlt2

/-- C8: field-order independence.  Two message sequences that are equal as
sequences of mappings — pointwise, each pair of records holds the same
key-value pairs (a permutation, with the keys of a record distinct, as they
are in any Python dict), possibly declared in different orders — derive the
identical cache key under any fixed model: the key-sorted serialization
erases field declaration order. -/
theorem C8_field_order_independence (model : String)
    (msgs1 msgs2 : List (List (String × String)))
    (h : List.Forall₂ (fun f g => f.Perm g ∧ (f.map Prod.fst).Nodup) msgs1 msgs2) :
    gen_cache_key (msgs1.map PyVal.dict) model
      = gen_cache_key (msgs2.map PyVal.dict) model := by
  have hmap : (msgs1.map PyVal.dict).map json_dumps_val
      = (msgs2.map PyVal.dict).map json_dumps_val := by
    rw [List.map_map, List.map_map]
    induction h with
    | nil => rfl
    | @cons a b l1 l2 hfg hrest ih =>
      rcases hfg with ⟨hperm, hnd⟩
      simp only [List.map_cons, Function.comp_apply]
      rw [ih, show json_dumps_val (PyVal.dict a) = json_dumps_val (PyVal.dict b) by
        simp only [json_dumps_val]
        rw [insertionSort_key_eq_of_perm a b hperm hnd]]
  have hd1 : (msgs1.map PyVal.dict).all PyVal.isDict = true := by
    rw [List.all_eq_true]
    rintro x hx
    rw [List.mem_map] at hx
    rcases hx with ⟨f, _, rfl⟩
    rfl
  have hd2 : (msgs2.map PyVal.dict).all PyVal.isDict = true := by
    rw [List.all_eq_true]
    rintro x hx
    rw [List.mem_map] at hx
    rcases hx with ⟨f, _, rfl⟩
    rfl
  have hser : json_dumps_messages (msgs1.map PyVal.dict)
      = json_dumps_messages (msgs2.map PyVal.dict) := by
    unfold json_dumps_messages
    rw [hmap]
  simp [gen_cache_key, hd1, hd2, hser]

/-- Witness for C8: the record `role: user, content: hi` written in its two
field orders, under model `"m"`. -/
theorem C8_field_order_independence_witness :
    List.Forall₂ (fun f g : List (String × String) => f.Perm g ∧ (f.map Prod.fst).Nodup)
      [[("role", "user"), ("content", "hi")]] [[("content", "hi"), ("role", "user")]] ∧
    gen_cache_key ([[("role", "user"), ("content", "hi")]].map PyVal.dict) "m"
      = gen_cache_key ([[("content", "hi"), ("role", "user")]].map PyVal.dict) "m" :=
  ⟨List.Forall₂.cons ⟨by decide, by decide⟩ List.Forall₂.nil,
    C8_field_order_independence "m" _ _
      (List.Forall₂.cons ⟨by decide, by decide⟩ List.Forall₂.nil)⟩

/-! ### Round trip of the chunk-list JSON codec -/

theorem hexVal_hexDigitChar : ∀ d : Nat, d < 16 → hexVal (hexDigitChar d) = some d := by
  decide

theorem parseHex4_toHex4 (n : Nat) (h : n < 65536) (rest : List Char) :
    parseHex4 (toHex4 n ++ rest) = some (n, rest) := by
  have e1 := hexVal_hexDigitChar (n / 4096 % 16) (Nat.mod_lt _ (by omega))
  have e2 := hexVal_hexDigitChar (n / 256 % 16) (Nat.mod_lt _ (by omega))
  have e3 := hexVal_hexDigitChar (n / 16 % 16) (Nat.mod_lt _ (by omega))
  have e4 := hexVal_hexDigitChar (n % 16) (Nat.mod_lt _ (by omega))
  simp only [toHex4, List.cons_append, List.nil_append, parseHex4, e1, e2, e3, e4]
  have harith : ((n / 4096 % 16 * 16 + n / 256 % 16) * 16 + n / 16 % 16) * 16 + n % 16
      = n := by omega
  rw [harith]

theorem char_toNat_valid (c : Char) :
    c.toNat < 0xd800 ∨ (0xdfff < c.toNat ∧ c.toNat < 0x110000) := c.valid

theorem escapeChar_eq_b (c : Char) (h1 : ¬ c = '\\') (h2 : ¬ c = '"') (h3 : ¬ c = '\n')
    (h4 : ¬ c = '\r') (h5 : ¬ c = '\t') (h6 : c.toNat = 8) :
    escapeChar c = '\\' :: ['b'] := by
  simp only [escapeChar]
  rw [if_neg h1, if_neg h2, if_neg h3, if_neg h4, if_neg h5, if_pos h6]

theorem escapeChar_eq_f (c : Char) (h1 : ¬ c = '\\') (h2 : ¬ c = '"') (h3 : ¬ c = '\n')
    (h4 : ¬ c = '\r') (h5 : ¬ c = '\t') (h6 : ¬ c.toNat = 8) (h7 : c.toNat = 12) :
    escapeChar c = '\\' :: ['f'] := by
  simp only [escapeChar]
  rw [if_neg h1, if_neg h2, if_neg h3, if_neg h4, if_neg h5, if_neg h6, if_pos h7]

theorem escapeChar_eq_lit (c : Char) (h1 : ¬ c = '\\') (h2 : ¬ c = '"') (h3 : ¬ c = '\n')
    (h4 : ¬ c = '\r') (h5 : ¬ c = '\t') (h6 : ¬ c.toNat = 8) (h7 : ¬ c.toNat = 12)
    (h8 : 0x20 ≤ c.toNat ∧ c.toNat ≤ 0x7e) :
    escapeChar c = [c] := by
  simp only [escapeChar]
  rw [if_neg h1, if_neg h2, if_neg h3, if_neg h4, if_neg h5, if_neg h6, if_neg h7,
    if_pos h8]

theorem escapeChar_eq_bmp (c : Char) (h1 : ¬ c = '\\') (h2 : ¬ c = '"') (h3 : ¬ c = '\n')
    (h4 : ¬ c = '\r') (h5 : ¬ c = '\t') (h6 : ¬ c.toNat = 8) (h7 : ¬ c.toNat = 12)
    (h8 : ¬ (0x20 ≤ c.toNat ∧ c.toNat ≤ 0x7e)) (h9 : c.toNat < 0x10000) :
    escapeChar c = '\\' :: ('u' :: toHex4 c.toNat) := by
  simp only [escapeChar]
  rw [if_neg h1, if_neg h2, if_neg h3, if_neg h4, if_neg h5, if_neg h6, if_neg h7,
    if_neg h8, if_pos h9]

theorem escapeChar_eq_astral (c : Char) (h1 : ¬ c = '\\') (h2 : ¬ c = '"') (h3 : ¬ c = '\n')
    (h4 : ¬ c = '\r') (h5 : ¬ c = '\t') (h6 : ¬ c.toNat = 8) (h7 : ¬ c.toNat = 12)
    (h8 : ¬ (0x20 ≤ c.toNat ∧ c.toNat ≤ 0x7e)) (h9 : ¬ c.toNat < 0x10000) :
    escapeChar c = '\\' :: ('u' :: toHex4 (0xD800 + (c.toNat - 0x10000) / 0x400) ++
      '\\' :: 'u' :: toHex4 (0xDC00 + (c.toNat - 0x10000) % 0x400)) := by
  simp only [escapeChar]
  rw [if_neg h1, if_neg h2, if_neg h3, if_neg h4, if_neg h5, if_neg h6, if_neg h7,
    if_neg h8, if_neg h9]
  simp only [List.cons_append]

theorem parseUnicodeEsc_bmp (c : Char) (h9 : c.toNat < 0x10000) (rest : List Char) :
    parseUnicodeEsc (toHex4 c.toNat ++ rest) = some (c, rest) := by
  have hvalid := char_toNat_valid c
  simp only [parseUnicodeEsc, parseHex4_toHex4 c.toNat h9 rest]
  rw [if_pos (by omega : c.toNat < 0xD800 ∨ 0xE000 ≤ c.toNat), Char.ofNat_toNat]

theorem parseUnicodeEsc_surrogatePair (hi lo : Nat)
    (hhi : 0xD800 ≤ hi ∧ hi < 0xDC00 ∧ hi < 65536)
    (hlo : 0xDC00 ≤ lo ∧ lo < 0xE000) (rest : List Char) :
    parseUnicodeEsc (toHex4 hi ++ ('\\' :: 'u' :: (toHex4 lo ++ rest)))
      = some (Char.ofNat ((hi - 0xD800) * 0x400 + (lo - 0xDC00) + 0x10000), rest) := by
  rw [parseUnicodeEsc, parseHex4_toHex4 _ (by omega : hi < 65536)]
  show (if hi < 0xD800 ∨ 0xE000 ≤ hi then
      some (Char.ofNat hi, '\\' :: 'u' :: (toHex4 lo ++ rest))
    else if hi < 0xDC00 then
      (match parseHex4 (toHex4 lo ++ rest) with
       | some (m, rest2) =>
         if 0xDC00 ≤ m ∧ m < 0xE000 then
           some (Char.ofNat ((hi - 0xD800) * 0x400 + (m - 0xDC00) + 0x10000), rest2)
         else none
       | none => none)
    else none) = some (Char.ofNat ((hi - 0xD800) * 0x400 + (lo - 0xDC00) + 0x10000), rest)
  rw [if_neg (by omega : ¬ (hi < 0xD800 ∨ 0xE000 ≤ hi)),
    if_pos (by omega : hi < 0xDC00), parseHex4_toHex4 _ (by omega : lo < 65536)]
  show (if 0xDC00 ≤ lo ∧ lo < 0xE000 then
      some (Char.ofNat ((hi - 0xD800) * 0x400 + (lo - 0xDC00) + 0x10000), rest)
    else none) = some (Char.ofNat ((hi - 0xD800) * 0x400 + (lo - 0xDC00) + 0x10000), rest)
  rw [if_pos hlo]

theorem parseUnicodeEsc_astral (c : Char) (h9 : ¬ c.toNat < 0x10000) (rest : List Char) :
    parseUnicodeEsc (toHex4 (0xD800 + (c.toNat - 0x10000) / 0x400) ++
      ('\\' :: 'u' :: (toHex4 (0xDC00 + (c.toNat - 0x10000) % 0x400) ++ rest)))
        = some (c, rest) := by
  have hvalid := char_toNat_valid c
  rw [parseUnicodeEsc_surrogatePair _ _ (by omega) (by omega) rest]
  have harith : (0xD800 + (c.toNat - 0x10000) / 0x400 - 0xD800) * 0x400 +
      (0xDC00 + (c.toNat - 0x10000) % 0x400 - 0xDC00) + 0x10000 = c.toNat := by omega
  rw [harith, Char.ofNat_toNat]

theorem parseEsc_bs (rest : List Char) : parseEsc (['\\'] ++ rest) = some ('\\', rest) := rfl

theorem parseEsc_quote (rest : List Char) : parseEsc (['"'] ++ rest) = some ('"', rest) := rfl

theorem parseEsc_n (rest : List Char) : parseEsc (['n'] ++ rest) = some ('\n', rest) := rfl

theorem parseEsc_r (rest : List Char) : parseEsc (['r'] ++ rest) = some ('\r', rest) := rfl

theorem parseEsc_t (rest : List Char) : parseEsc (['t'] ++ rest) = some ('\t', rest) := rfl

theorem parseEsc_b (c : Char) (h6 : c.toNat = 8) (rest : List Char) :
    parseEsc (['b'] ++ rest) = some (c, rest) := by
  show some (Char.ofNat 8, rest) = some (c, rest)
  rw [← h6, Char.ofNat_toNat]

theorem parseEsc_f (c : Char) (h7 : c.toNat = 12) (rest : List Char) :
    parseEsc (['f'] ++ rest) = some (c, rest) := by
  show some (Char.ofNat 12, rest) = some (c, rest)
  rw [← h7, Char.ofNat_toNat]

theorem parseEsc_u_bmp (c : Char) (h9 : c.toNat < 0x10000) (rest : List Char) :
    parseEsc (('u' :: toHex4 c.toNat) ++ rest) = some (c, rest) := by
  show parseUnicodeEsc (toHex4 c.toNat ++ rest) = some (c, rest)
  exact parseUnicodeEsc_bmp c h9 rest

theorem parseEsc_u (rest : List Char) : parseEsc ('u' :: rest) = parseUnicodeEsc rest := rfl

theorem parseEsc_u_astral (c : Char) (h9 : ¬ c.toNat < 0x10000) (rest : List Char) :
    parseEsc (('u' :: toHex4 (0xD800 + (c.toNat - 0x10000) / 0x400) ++
      '\\' :: 'u' :: toHex4 (0xDC00 + (c.toNat - 0x10000) % 0x400)) ++ rest)
        = some (c, rest) := by
  have hl : ('u' :: toHex4 (0xD800 + (c.toNat - 0x10000) / 0x400) ++
      '\\' :: 'u' :: toHex4 (0xDC00 + (c.toNat - 0x10000) % 0x400)) ++ rest
      = 'u' :: (toHex4 (0xD800 + (c.toNat - 0x10000) / 0x400) ++
        ('\\' :: 'u' :: (toHex4 (0xDC00 + (c.toNat - 0x10000) % 0x400) ++ rest))) := by
    simp only [List.cons_append, List.append_assoc]
  rw [hl, parseEsc_u]
  exact parseUnicodeEsc_astral c h9 rest

/-- Case analysis of the encoder's per-character output: either the character
is emitted verbatim (and is then neither a quote, a backslash, nor a control
character), or it is emitted as a backslash escape that the decoder's escape
reader maps back to exactly that character. -/
theorem escapeChar_spec (c : Char) :
    (escapeChar c = [c] ∧ c ≠ '"' ∧ c ≠ '\\' ∧ ¬ c.toNat < 0x20) ∨
    (∃ t, escapeChar c = '\\' :: t ∧ ∀ rest, parseEsc (t ++ rest) = some (c, rest)) := by
  by_cases h1 : c = '\\'
  · exact Or.inr ⟨['\\'], by rw [h1]; rfl, fun rest => by rw [h1]; exact parseEsc_bs rest⟩
  by_cases h2 : c = '"'
  · exact Or.inr ⟨['"'], by rw [h2]; rfl, fun rest => by rw [h2]; exact parseEsc_quote rest⟩
  by_cases h3 : c = '\n'
  · exact Or.inr ⟨['n'], by rw [h3]; rfl, fun rest => by rw [h3]; exact parseEsc_n rest⟩
  by_cases h4 : c = '\r'
  · exact Or.inr ⟨['r'], by rw [h4]; rfl, fun rest => by rw [h4]; exact parseEsc_r rest⟩
  by_cases h5 : c = '\t'
  · exact Or.inr ⟨['t'], by rw [h5]; rfl, fun rest => by rw [h5]; exact parseEsc_t rest⟩
  by_cases h6 : c.toNat = 8
  · exact Or.inr ⟨['b'], escapeChar_eq_b c h1 h2 h3 h4 h5 h6, fun rest =>
      parseEsc_b c h6 rest⟩
  by_cases h7 : c.toNat = 12
  · exact Or.inr ⟨['f'], escapeChar_eq_f c h1 h2 h3 h4 h5 h6 h7, fun rest =>
      parseEsc_f c h7 rest⟩
  by_cases h8 : 0x20 ≤ c.toNat ∧ c.toNat ≤ 0x7e
  · exact Or.inl ⟨escapeChar_eq_lit c h1 h2 h3 h4 h5 h6 h7 h8, h2, h1, by omega⟩
  by_cases h9 : c.toNat < 0x10000
  · exact Or.inr ⟨'u' :: toHex4 c.toNat,
      escapeChar_eq_bmp c h1 h2 h3 h4 h5 h6 h7 h8 h9, fun rest => parseEsc_u_bmp c h9 rest⟩
  · exact Or.inr ⟨'u' :: toHex4 (0xD800 + (c.toNat - 0x10000) / 0x400) ++
      '\\' :: 'u' :: toHex4 (0xDC00 + (c.toNat - 0x10000) % 0x400),
      escapeChar_eq_astral c h1 h2 h3 h4 h5 h6 h7 h8 h9, fun rest =>
      parseEsc_u_astral c h9 rest⟩

theorem parseStrBody_quote (fuel : Nat) (rest : List Char) :
    parseStrBody fuel ('"' :: rest) = some ([], rest) := by
  cases fuel <;> rfl

theorem parseStrBody_cons (fuel : Nat) (c : Char) (rest : List Char) :
    parseStrBody (fuel + 1) (c :: rest)
      = if c = '"' then some ([], rest)
        else if c = '\\' then
          (match parseEsc rest with
           | some (e, rest1) =>
             (match parseStrBody fuel rest1 with
              | some (l, r) => some (e :: l, r)
              | none => none)
           | none => none)
        else if c.toNat < 0x20 then none
        else
          (match parseStrBody fuel rest with
           | some (l, r) => some (c :: l, r)
           | none => none) := rfl

/-- One decoded character per unit of fuel: parsing the encoder's output for
one character consumes exactly that character's escape sequence. -/
theorem parseStrBody_step (c : Char) (rest : List Char) (fuel : Nat) :
    parseStrBody (fuel + 1) (escapeChar c ++ rest)
      = match parseStrBody fuel rest with
        | some (l, r) => some (c :: l, r)
        | none => none := by
  rcases escapeChar_spec c with ⟨he, hq, hb, hctl⟩ | ⟨t, he, hp⟩
  · rw [he, List.singleton_append, parseStrBody_cons, if_neg hq, if_neg hb, if_neg hctl]
  · rw [he, List.cons_append, parseStrBody_cons,
      if_neg (by decide : ¬ ('\\' : Char) = '"'), if_pos rfl, hp rest]

/-- The string-body decoder inverts the body encoder, given fuel at least the
number of decoded characters. -/
theorem parseStrBody_encBody (s : List Char) : ∀ (tail : List Char) (fuel : Nat),
    s.length ≤ fuel →
    parseStrBody fuel (encBody s ++ '"' :: tail) = some (s, tail) := by
  induction s with
  | nil =>
    intro tail fuel _
    rw [encBody, List.nil_append]
    exact parseStrBody_quote fuel tail
  | cons c cs ih =>
    intro tail fuel hf
    rw [List.length_cons] at hf
    cases fuel with
    | zero => omega
    | succ f =>
      rw [encBody, List.append_assoc, parseStrBody_step, ih tail f (by omega)]

theorem skipWs_not_ws (c : Char) (l : List Char)
    (h : (c == ' ' || c == '\t' || c == '\n' || c == '\r') = false) :
    skipWs (c :: l) = c :: l := by
  simp only [skipWs, List.dropWhile_cons, h]
  rfl

theorem skipWs_space (l : List Char) : skipWs (' ' :: l) = skipWs l := by
  simp [skipWs, List.dropWhile_cons]

theorem length_le_encBody (s : List Char) : s.length ≤ (encBody s).length := by
  induction s with
  | nil => simp [encBody]
  | cons c cs ih =>
    rw [encBody, List.length_append, List.length_cons]
    have h1 : 1 ≤ (escapeChar c).length := by
      rcases escapeChar_spec c with ⟨he, _, _, _⟩ | ⟨t, he, _⟩ <;> rw [he] <;> simp
    omega

theorem encItems_single (s : String) : encItems [s] = quoteChars s := rfl

theorem encItems_cons (s s2 : String) (ls : List String) :
    encItems (s :: s2 :: ls) = quoteChars s ++ ',' :: ' ' :: encItems (s2 :: ls) := rfl

theorem parseItems_cons (fuel : Nat) (c : Char) (rest : List Char) :
    parseItems (fuel + 1) (c :: rest)
      = if c = '"' then
          (match parseStrBody rest.length rest with
           | none => none
           | some (item, rest1) =>
             (match skipWs rest1 with
              | [] => none
              | d :: tail =>
                if d = ']' then some ([item], tail)
                else if d = ',' then
                  (match parseItems fuel (skipWs tail) with
                   | some (items, tail1) => some (item :: items, tail1)
                   | none => none)
                else none))
        else none := by
  rw [parseItems]

theorem encItems_head_quote (s : String) (ls : List String) (X : List Char) :
    skipWs (encItems (s :: ls) ++ X) = encItems (s :: ls) ++ X := by
  cases ls with
  | nil =>
    rw [encItems_single, quoteChars, List.cons_append]
    exact skipWs_not_ws '"' _ (by decide)
  | cons s2 ls2 =>
    rw [encItems_cons, quoteChars]
    simp only [List.cons_append, List.append_assoc]
    exact skipWs_not_ws '"' _ (by decide)

/-- The item-sequence decoder inverts the item-sequence encoder: parsing the
encoded items of a nonempty chunk list, followed by the closing bracket,
returns exactly those items. -/
theorem parseItems_encItems (ls : List String) : ∀ (s : String) (tail : List Char) (fuel : Nat),
    ls.length < fuel →
    parseItems fuel (encItems (s :: ls) ++ ']' :: tail)
      = some ((s :: ls).map String.data, tail) := by
  induction ls with
  | nil =>
    intro s tail fuel hf
    cases fuel with
    | zero => omega
    | succ f =>
      have hlen : s.data.length ≤ (encBody s.data ++ '"' :: ']' :: tail).length := by
        have := length_le_encBody s.data
        simp only [List.length_append, List.length_cons]
        omega
      have hps := parseStrBody_encBody s.data (']' :: tail) _ hlen
      simp only [encItems_single, quoteChars, List.cons_append, List.append_assoc,
        List.singleton_append, List.nil_append]
      rw [parseItems_cons, if_pos rfl]
      simp only [hps, skipWs_not_ws ']' tail (by decide)]
      simp
  | cons s2 ls2 ih =>
    intro s tail fuel hf
    rw [List.length_cons] at hf
    cases fuel with
    | zero => omega
    | succ f =>
      have hlen : s.data.length ≤ (encBody s.data ++
          '"' :: ',' :: ' ' :: (encItems (s2 :: ls2) ++ ']' :: tail)).length := by
        have := length_le_encBody s.data
        simp only [List.length_append, List.length_cons]
        omega
      have hps := parseStrBody_encBody s.data
        (',' :: ' ' :: (encItems (s2 :: ls2) ++ ']' :: tail)) _ hlen
      rw [encItems_cons, quoteChars]
      simp only [List.cons_append, List.append_assoc, List.singleton_append,
        List.nil_append]
      rw [parseItems_cons, if_pos rfl]
      simp only [hps, skipWs_not_ws ',' _ (by decide)]
      rw [if_neg (by decide : ¬ (',' : Char) = ']'), if_pos trivial]
      rw [skipWs_space, encItems_head_quote s2 ls2 (']' :: tail)]
      rw [ih s2 tail f (by omega)]
      simp

theorem encItems_cons_head (s : String) (ls : List String) :
    ∃ t, encItems (s :: ls) = '"' :: t := by
  cases ls with
  | nil =>
    refine ⟨encBody s.data ++ ['"'], ?_⟩
    rw [encItems_single, quoteChars, List.cons_append]
  | cons s2 ls2 =>
    refine ⟨(encBody s.data ++ ['"']) ++ ',' :: ' ' :: encItems (s2 :: ls2), ?_⟩
    rw [encItems_cons, quoteChars]
    simp only [List.cons_append, List.append_assoc, List.singleton_append, List.nil_append]

theorem le_length_encItems (ls : List String) :
    ∀ s : String, ls.length ≤ (encItems (s :: ls)).length := by
  induction ls with
  | nil => intro s; simp
  | cons s2 ls2 ih =>
    intro s
    rw [encItems_cons]
    simp only [List.length_append, List.length_cons]
    have := ih s2
    omega

theorem string_mk_data (s : String) : String.mk s.data = s := rfl

/-- Round trip of the chunk-list codec: decoding the stored JSON array of
chunk strings recovers exactly the chunk list that was serialized, including
empty chunks and arbitrary text. -/
theorem json_loads_dumps_chunks (l : List String) :
    json_loads_chunks (json_dumps_chunks l) = some l := by
  cases l with
  | nil => rfl
  | cons s ls =>
    obtain ⟨t, ht⟩ := encItems_cons_head s ls
    have hd : (json_dumps_chunks (s :: ls)).data
        = '[' :: (encItems (s :: ls) ++ [']']) := rfl
    rw [json_loads_chunks, hd, skipWs_not_ws '[' _ (by decide), ht]
    simp only [List.cons_append]
    have h2 : skipWs ('"' :: (t ++ [']'])) = '"' :: (t ++ [']']) :=
      skipWs_not_ws '"' _ (by decide)
    simp only [h2]
    rw [if_neg (by decide : ¬ ('"' : Char) = ']')]
    have hback : ('"' : Char) :: (t ++ [']']) = encItems (s :: ls) ++ ']' :: [] := by
      rw [ht]
      simp
    rw [hback, parseItems_encItems ls s [] _ (by
      have := le_length_encItems ls s
      rw [List.length_append, List.length_cons]
      omega)]
    simp only [skipWs, List.dropWhile_nil, List.map_cons, List.map_map, if_pos rfl,
      string_mk_data]
    simp [Function.comp_def, string_mk_data]

theorem json_dumps_chunks_ne_empty (l : List String) : json_dumps_chunks l ≠ "" := by
  intro h
  have hd := congrArg String.data h
  simp [json_dumps_chunks] at hd

/-- C6: streaming content fidelity.  On a miss, the wrapper yields exactly the
live chunks and stores their JSON serialization; a later run with the same
key replays, via `json.loads`, exactly the same chunk list — without calling
the wrapped generation operation — so the concatenation of the replayed
chunks equals the concatenation of the original miss-path chunks (the JSON
store-and-decode round-trips text exactly, including empty chunks). -/
theorem C6_stream_content_fidelity (model : String) (messages : List PyVal)
    (store : Store) (chunks : List String) (g2 : List String × Option PyExc)
    (hd : messages.all PyVal.isDict = true)
    (hm : redis_truthy_get store (docgpt_cache_key messages) = none) :
    (stream_cache_wrapper model messages true store (chunks, none)).chunks = chunks ∧
    (stream_cache_wrapper model messages true
        (stream_cache_wrapper model messages true store (chunks, none)).store g2).chunks
      = chunks ∧
    (stream_cache_wrapper model messages true
        (stream_cache_wrapper model messages true store (chunks, none)).store g2).genCalled
      = false ∧
    String.join ((stream_cache_wrapper model messages true
        (stream_cache_wrapper model messages true store (chunks, none)).store g2).chunks)
      = String.join ((stream_cache_wrapper model messages true store (chunks, none)).chunks) := by
  have hkey := gen_cache_key_ok_of_all_dict hd
  have hr1 : stream_cache_wrapper model messages true store (chunks, none)
      = ⟨chunks, StreamOutcome.done,
          Store.set store (docgpt_cache_key messages) (json_dumps_chunks chunks) 1800,
          true⟩ := by
    simp [stream_cache_wrapper, hkey, hm]
  have hget : redis_truthy_get
      (Store.set store (docgpt_cache_key messages) (json_dumps_chunks chunks) 1800)
      (docgpt_cache_key messages) = some (json_dumps_chunks chunks) := by
    simp [redis_truthy_get, Store.get_set_self, json_dumps_chunks_ne_empty chunks]
  have hr2 : stream_cache_wrapper model messages true
      (Store.set store (docgpt_cache_key messages) (json_dumps_chunks chunks) 1800) g2
      = ⟨chunks, StreamOutcome.done,
          Store.set store (docgpt_cache_key messages) (json_dumps_chunks chunks) 1800,
          false⟩ := by
    simp [stream_cache_wrapper, hkey, hget, json_loads_dumps_chunks]
  rw [hr1]
  exact ⟨rfl, by rw [hr2], by rw [hr2], by rw [hr2]⟩

/-- Witness for C6 at model `"m"`, the single user message `"hi"`, an empty
store, and the chunk list `["a", "", "c"]` (with an empty chunk). -/
theorem C6_stream_content_fidelity_witness :
    example_messages.all PyVal.isDict = true ∧
    redis_truthy_get [] (docgpt_cache_key example_messages) = none ∧
    ((stream_cache_wrapper "m" example_messages true [] (["a", "", "c"], none)).chunks
        = ["a", "", "c"] ∧
      (stream_cache_wrapper "m" example_messages true
          (stream_cache_wrapper "m" example_messages true [] (["a", "", "c"], none)).store
          ([], none)).chunks = ["a", "", "c"] ∧
      (stream_cache_wrapper "m" example_messages true
          (stream_cache_wrapper "m" example_messages true [] (["a", "", "c"], none)).store
          ([], none)).genCalled = false ∧
      String.join ((stream_cache_wrapper "m" example_messages true
          (stream_cache_wrapper "m" example_messages true [] (["a", "", "c"], none)).store
          ([], none)).chunks)
        = String.join ((stream_cache_wrapper "m" example_messages true []
            (["a", "", "c"], none)).chunks)) :=
  ⟨rfl, rfl,
    C6_stream_content_fidelity "m" example_messages [] ["a", "", "c"] ([], none) rfl rfl⟩
